import Mathlib

/-!
Verification of the Plate Identity Resolution & Tracking Engine.

This file gives a shallow embedding of the core logic of the repository
(`database.py`, `utils.py`, `video_processor.py`) and proves or refutes the
frozen behavioural claims about it.

Modelling conventions:
* plate texts are `List Char` (Python `str`);
* timestamps are `ℚ` (ISO-8601 strings of a fixed format compare like the
  instants they denote, both in Python and in SQLite's string comparison);
* confidences and thresholds are `ℚ` (Python floats; no rounding behaviour of
  IEEE floats is relevant to any claim considered here);
* SQL tables are Lean lists of rows in rowid order; `UPDATE ... WHERE`
  becomes `List.map` with a conditional, `INSERT` an append, `DELETE` a
  `List.filter`.
-/

unseal Rat.add Rat.sub Rat.mul Rat.inv Rat.ofScientific

/-- Unit-cost Levenshtein edit distance, as computed by the
`Levenshtein.distance` library call in `database.py`. -/
def levDistance (a b : List Char) : ℕ :=
  levenshtein Levenshtein.defaultCost a b

/-- Cost table of the indel alignment underlying `Levenshtein.ratio`:
insertions and deletions cost 1, substitutions cost 2 (so they are never
preferred over a delete+insert pair). -/
def indelCost : Levenshtein.Cost Char Char ℕ :=
  { delete := fun _ => 1, insert := fun _ => 1,
    substitute := fun a b => if a = b then 0 else 2 }

/-- Similarity ratio, as computed by the `Levenshtein.ratio` library call:
`(len1 + len2 - indel_distance) / (len1 + len2)`, and `1` when both strings
are empty. -/
def levRatio (a b : List Char) : ℚ :=
  if a.length + b.length = 0 then 1
  else 1 - ((levenshtein indelCost a b : ℕ) : ℚ) / (a.length + b.length)

/-- Python `str.strip`: drop whitespace from both ends. -/
def pyStrip (s : List Char) : List Char :=
  ((s.dropWhile Char.isWhitespace).reverse.dropWhile Char.isWhitespace).reverse

/-- The Similarity Predicate `DB._is_similar_plate` (`database.py`), with the
two thresholds passed explicitly (the source reads them from the settings
store when they are not supplied; the stored defaults are `2` and `0.8`). -/
def is_similar_plate (p1 p2 : List Char)
    (threshold_distance threshold_ratio : ℚ) : Bool :=
  if p1 = [] ∨ p2 = [] then false
  else
    let q1 := pyStrip p1
    let q2 := pyStrip p2
    let len1 := q1.length
    let len2 := q2.length
    let distance := levDistance q1 q2
    let ratio := levRatio q1 q2
    if len1 ≤ 4 ∨ len2 ≤ 4 then
      decide (distance ≤ 1)
    else if len1 ≤ 7 ∨ len2 ≤ 7 then
      decide ((distance : ℚ) ≤ threshold_distance)
    else
      decide ((distance : ℚ) ≤ threshold_distance) || decide (threshold_ratio ≤ ratio)

/-- The Similarity Predicate at the stored default thresholds
(`levenshtein_threshold = 2`, `similarity_ratio = 0.8`). -/
def is_similar_plate_default (p1 p2 : List Char) : Bool :=
  is_similar_plate p1 p2 2 (4/5)

/-- Identity-resolution match used by `VideoProcessor.plate_callback`
(`video_processor.py`): plain Levenshtein distance at most 2. -/
def plate_callback_match (pt p_text : List Char) : Bool :=
  decide (levDistance pt p_text ≤ 2)

/-- Blacklist match used by `VideoProcessor._check_blacklist`
(`video_processor.py`): plain Levenshtein distance at most 2. -/
def check_blacklist_match (plate_text bp : List Char) : Bool :=
  decide (levDistance plate_text bp ≤ 2)

/-- History-merge match used by `DB.get_plate_detections` (`database.py`):
the Similarity Predicate at its default thresholds. -/
def history_merge_match (a b : List Char) : Bool :=
  is_similar_plate_default a b

/-- C4: on trimmed inputs with the default thresholds, the Similarity
Predicate returns false when either input is empty; with either length ≤ 4 it
holds iff the edit distance is ≤ 1; with either length ≤ 7 (neither earlier
tier applying) iff the edit distance is ≤ 2; otherwise iff the edit distance
is ≤ 2 or the similarity ratio is ≥ 0.8. -/
theorem C4_similarity_tiers (p1 p2 : List Char)
    (h1 : pyStrip p1 = p1) (h2 : pyStrip p2 = p2) :
    ((p1 = [] ∨ p2 = []) → is_similar_plate_default p1 p2 = false)
    ∧ (p1 ≠ [] → p2 ≠ [] → (p1.length ≤ 4 ∨ p2.length ≤ 4) →
        (is_similar_plate_default p1 p2 = true ↔ levDistance p1 p2 ≤ 1))
    ∧ (p1 ≠ [] → p2 ≠ [] → ¬(p1.length ≤ 4 ∨ p2.length ≤ 4) →
        (p1.length ≤ 7 ∨ p2.length ≤ 7) →
        (is_similar_plate_default p1 p2 = true ↔ (levDistance p1 p2 : ℚ) ≤ 2))
    ∧ (p1 ≠ [] → p2 ≠ [] → ¬(p1.length ≤ 4 ∨ p2.length ≤ 4) →
        ¬(p1.length ≤ 7 ∨ p2.length ≤ 7) →
        (is_similar_plate_default p1 p2 = true ↔
          ((levDistance p1 p2 : ℚ) ≤ 2 ∨ levRatio p1 p2 ≥ 4/5))) := by
  unfold is_similar_plate_default is_similar_plate
  rw [h1, h2]
  refine ⟨fun h => by simp [h], fun e1 e2 h4 => ?_, fun e1 e2 h4 h7 => ?_,
    fun e1 e2 h4 h7 => ?_⟩
  · simp [e1, e2, h4]
  · simp [e1, e2, h4, h7]
  · simp [e1, e2, h4, h7, ge_iff_le]

/-- Witness for C4 at a concrete input: "AB12" and "AB13" are similar. -/
theorem C4_similarity_tiers_witness :
    is_similar_plate_default "AB12".toList "AB13".toList = true :=
  ((C4_similarity_tiers "AB12".toList "AB13".toList (by decide)
      (by decide)).2.1 (by decide) (by decide) (by decide)).mpr (by decide)

/-- C5 counterexample: at texts "AB12" and "CD12" (edit distance 2, length 4)
the identity-resolution match of the ingestion callback says "same plate"
while the Similarity Predicate does not, so the three call sites do not all
agree with the predicate. -/
theorem C5_counterexample :
    plate_callback_match "AB12".toList "CD12".toList = true
    ∧ is_similar_plate_default "AB12".toList "CD12".toList = false := by
  exact ⟨by decide, by decide⟩

/-- C5 (amended): history merging uses exactly the Similarity Predicate, and
identity resolution and the worker-side blacklist check agree with each other
(both are plain Levenshtein distance ≤ 2), but they are not the Similarity
Predicate: the two notions disagree on some pair of texts. -/
theorem C5_amended_call_sites :
    (∀ a b, plate_callback_match a b = check_blacklist_match a b)
    ∧ (∀ a b, history_merge_match a b = is_similar_plate_default a b)
    ∧ (∃ a b, plate_callback_match a b ≠ is_similar_plate_default a b) := by
  refine ⟨fun a b => rfl, fun a b => rfl,
    ⟨"AB12".toList, "CD12".toList, by decide⟩⟩

/-- One row of the `plates` table. In states produced by the ingestion
pipeline `confidence` is always populated (the Python comparison
`confidence > best['confidence']` would raise on a missing value), so it is
modelled as a plain number here; the correlation pass below, which guards
for missing values, uses its own row view. -/
structure PlateRow where
  id : ℕ
  plate_text : List Char
  confidence : ℚ
  first_appearance : ℚ
  last_appearance : ℚ
  total_appearances : ℕ
  is_blacklisted : Bool
  reason : Option (List Char)
  danger_level : Option (List Char)
deriving DecidableEq

/-- One row of the `blacklist` table. -/
structure BlacklistRow where
  plate_text : List Char
  reason : List Char
  danger_level : List Char
  date_added : ℚ
  last_seen : Option ℚ
deriving DecidableEq

/-- DB.update_plate_appearance (`database.py`): one UPDATE setting
`last_appearance` and incrementing `total_appearances` unconditionally for
the given id, then a second UPDATE raising `confidence` only when the stored
value is strictly smaller. -/
def update_plate_appearance (pid : ℕ) (la_iso confidence : ℚ)
    (plates : List PlateRow) : List PlateRow :=
  let plates1 := plates.map fun p =>
    if p.id = pid then
      { p with last_appearance := la_iso,
               total_appearances := p.total_appearances + 1 }
    else p
  plates1.map fun p =>
    if p.id = pid ∧ p.confidence < confidence then
      { p with confidence := confidence }
    else p

/-- DB.insert_plate (`database.py`): the new row, blacklisted when the first
stored blacklist entry (in storage order) is similar to the text, copying its
reason and danger level. `first_appearance` and `last_appearance` are both
the observation time, `total_appearances` is 1. -/
def insert_plate_row (newId : ℕ) (pt : List Char) (confidence observedAt : ℚ)
    (blacklist : List BlacklistRow) : PlateRow :=
  match blacklist.find? (fun b => is_similar_plate_default pt b.plate_text) with
  | some b =>
      { id := newId, plate_text := pt, confidence := confidence,
        first_appearance := observedAt, last_appearance := observedAt,
        total_appearances := 1, is_blacklisted := true,
        reason := some b.reason, danger_level := some b.danger_level }
  | none =>
      { id := newId, plate_text := pt, confidence := confidence,
        first_appearance := observedAt, last_appearance := observedAt,
        total_appearances := 1, is_blacklisted := false,
        reason := none, danger_level := none }

/-- Python `max(similar_plates, key=lambda x: x[1]['confidence'])`: the first
element carrying the maximal confidence, in iteration order. -/
def maxByConfidence : List PlateRow → Option PlateRow
  | [] => none
  | p :: ps =>
      some (ps.foldl (fun best q => if best.confidence < q.confidence then q else best) p)

/-- Aggregate effect of VideoProcessor.plate_callback (`video_processor.py`)
on the plate records: resolve the incoming text against all known plates with
`plate_callback_match`, pick the match with the highest confidence, and
update it via `update_plate_appearance` only when the incoming confidence is
strictly greater; with no match, insert a fresh record. The per-detection
history write is modelled separately by `add_plate_detection`. -/
def plate_callback_aggregate (plates : List PlateRow)
    (blacklist : List BlacklistRow) (text : List Char)
    (confidence observedAt : ℚ) (newId : ℕ) : List PlateRow :=
  let similar := plates.filter (fun p => plate_callback_match text p.plate_text)
  match maxByConfidence similar with
  | some best =>
      if best.confidence < confidence then
        update_plate_appearance best.id observedAt confidence plates
      else plates
  | none => plates ++ [insert_plate_row newId text confidence observedAt blacklist]

/-- One resolved read arriving at the ingestion gateway. -/
structure IngestCall where
  text : List Char
  confidence : ℚ
  observedAt : ℚ
  newId : ℕ
deriving DecidableEq

/-- A sequence of reads processed in arrival order. -/
def ingestAll (plates : List PlateRow) (blacklist : List BlacklistRow)
    (calls : List IngestCall) : List PlateRow :=
  calls.foldl
    (fun st c => plate_callback_aggregate st blacklist c.text c.confidence c.observedAt c.newId)
    plates

/-- First row of the `plates` table with the given id, in rowid order. -/
def findId (plates : List PlateRow) (i : ℕ) : Option PlateRow :=
  plates.find? (fun p => decide (p.id = i))

theorem findId_map (f : PlateRow → PlateRow) (hf : ∀ p, (f p).id = p.id)
    (l : List PlateRow) (i : ℕ) :
    findId (l.map f) i = (findId l i).map f := by
  simp only [findId]
  induction l with
  | nil => rfl
  | cons a t ih =>
      simp only [List.map_cons, List.find?_cons, hf]
      by_cases h : a.id = i
      · simp [h]
      · simp [h, ih]

theorem findId_append_left (l₁ l₂ : List PlateRow) (i : ℕ) (p : PlateRow)
    (h : findId l₁ i = some p) : findId (l₁ ++ l₂) i = some p := by
  simp only [findId] at *
  induction l₁ with
  | nil => simp at h
  | cons a t ih =>
      simp only [List.cons_append, List.find?_cons] at h ⊢
      by_cases hp : a.id = i
      · simpa [hp] using h
      · simp only [hp, decide_False] at h ⊢
        exact ih h

theorem update_plate_appearance_findId (plates : List PlateRow)
    (pid : ℕ) (la conf : ℚ) (i : ℕ) (p : PlateRow)
    (h : findId plates i = some p) :
    findId (update_plate_appearance pid la conf plates) i =
      some (if p.id = pid then
        { p with last_appearance := la,
                 total_appearances := p.total_appearances + 1,
                 confidence := if p.confidence < conf then conf else p.confidence }
      else p) := by
  have h1 := findId_map
    (fun q => if q.id = pid then
        { q with last_appearance := la,
                 total_appearances := q.total_appearances + 1 } else q)
    (fun q => by by_cases hq : q.id = pid <;> simp [hq]) plates i
  have h2 := findId_map
    (fun q => if q.id = pid ∧ q.confidence < conf then
        { q with confidence := conf } else q)
    (fun q => by by_cases hq : q.id = pid ∧ q.confidence < conf <;> simp [hq])
    (plates.map (fun q => if q.id = pid then
        { q with last_appearance := la,
                 total_appearances := q.total_appearances + 1 } else q)) i
  simp only [update_plate_appearance]
  rw [h2, h1, h]
  simp only [Option.map_some']
  by_cases hid : p.id = pid
  · by_cases hc : p.confidence < conf
    · simp [hid, hc]
    · simp [hid, hc]
  · simp [hid]

/-- C1 counterexample: ingesting the tuple ("AB1234", 70, t) twice leaves the
resolved record with `total_appearances = 1`, not 2 — the second, matched
read has a confidence that is not strictly greater than the stored one, so
the callback skips `update_plate_appearance` entirely and neither
`last_appearance` nor `total_appearances` is touched. -/
theorem C1_counterexample :
    (plate_callback_aggregate
        (plate_callback_aggregate [] [] "AB1234".toList 70 0 1)
        [] "AB1234".toList 70 0 2) =
      plate_callback_aggregate [] [] "AB1234".toList 70 0 1
    ∧ (plate_callback_aggregate
        (plate_callback_aggregate [] [] "AB1234".toList 70 0 1)
        [] "AB1234".toList 70 0 2).map PlateRow.total_appearances = [1] := by
  exact ⟨by decide, by decide⟩

/-- C1 (amended): a matched ingest updates the resolved record only when the
incoming confidence is strictly greater than the stored best; in that case
`last_appearance := observedAt`, `total_appearances += 1` and
`confidence := incoming`, and with a not-greater confidence the plate records
are left completely unchanged, so ingesting the same (text, confidence,
timestamp) tuple twice leaves `total_appearances = 1`. -/
theorem C1_amended_matched_update :
    (∀ plates blacklist text confidence observedAt newId best,
      maxByConfidence (plates.filter (fun p => plate_callback_match text p.plate_text)) =
          some best →
      plate_callback_aggregate plates blacklist text confidence observedAt newId =
        (if best.confidence < confidence then
          update_plate_appearance best.id observedAt confidence plates
        else plates))
    ∧ (∀ plates pid la conf p,
        findId plates pid = some p → p.confidence < conf →
        findId (update_plate_appearance pid la conf plates) pid =
          some { p with last_appearance := la,
                        total_appearances := p.total_appearances + 1,
                        confidence := conf })
    ∧ (plate_callback_aggregate
          (plate_callback_aggregate [] [] "AB1234".toList 70 0 1)
          [] "AB1234".toList 70 0 2).map PlateRow.total_appearances = [1] := by
  refine ⟨fun plates blacklist text confidence observedAt newId best hbest => ?_,
    fun plates pid la conf p h hc => ?_, by decide⟩
  · simp only [plate_callback_aggregate]
    rw [hbest]
  · have hid : p.id = pid := by
      have := List.find?_some h
      simpa using this
    rw [update_plate_appearance_findId plates pid la conf pid p h]
    simp [hid, hc]

/-- Witness for C1 (amended) at a concrete state: a matched read with higher
confidence rewrites the record through `update_plate_appearance`. -/
theorem C1_amended_matched_update_witness :
    plate_callback_aggregate
        [{ id := 1, plate_text := "AB1234".toList, confidence := 70,
           first_appearance := 0, last_appearance := 0, total_appearances := 1,
           is_blacklisted := false, reason := none, danger_level := none }] []
        "AB1234".toList 80 5 2 =
      update_plate_appearance 1 5 80
        [{ id := 1, plate_text := "AB1234".toList, confidence := 70,
           first_appearance := 0, last_appearance := 0, total_appearances := 1,
           is_blacklisted := false, reason := none, danger_level := none }] := by
  have h := C1_amended_matched_update.1
    [{ id := 1, plate_text := "AB1234".toList, confidence := 70,
       first_appearance := 0, last_appearance := 0, total_appearances := 1,
       is_blacklisted := false, reason := none, danger_level := none }] []
    "AB1234".toList 80 5 2
    { id := 1, plate_text := "AB1234".toList, confidence := 70,
      first_appearance := 0, last_appearance := 0, total_appearances := 1,
      is_blacklisted := false, reason := none, danger_level := none }
    (by decide)
  rw [if_pos (by norm_num)] at h
  exact h

theorem plate_callback_aggregate_findId_step (plates : List PlateRow)
    (blacklist : List BlacklistRow) (text : List Char)
    (confidence observedAt : ℚ) (newId : ℕ) (i : ℕ) (p : PlateRow)
    (h : findId plates i = some p) :
    ∃ p', findId (plate_callback_aggregate plates blacklist text confidence observedAt newId)
            i = some p'
      ∧ p.confidence ≤ p'.confidence
      ∧ (p.last_appearance ≤ observedAt → p.last_appearance ≤ p'.last_appearance) := by
  simp only [plate_callback_aggregate]
  cases hbest : maxByConfidence
      (plates.filter (fun q => plate_callback_match text q.plate_text)) with
  | none =>
      exact ⟨p, findId_append_left _ _ _ _ h, le_refl _, fun _ => le_refl _⟩
  | some best =>
      dsimp only
      by_cases hc : best.confidence < confidence
      · rw [if_pos hc,
          update_plate_appearance_findId plates best.id observedAt confidence i p h]
        refine ⟨_, rfl, ?_, ?_⟩
        · split_ifs with h1 h2
          · exact le_of_lt h2
          · exact le_refl _
          · exact le_refl _
        · intro hla
          split_ifs with h1 h2
          · exact hla
          · exact hla
          · exact le_refl _
      · rw [if_neg hc]
        exact ⟨p, h, le_refl _, fun _ => le_refl _⟩

theorem ingestAll_confidence_mono (blacklist : List BlacklistRow)
    (calls : List IngestCall) : ∀ (plates : List PlateRow) (i : ℕ) (p p' : PlateRow),
    findId plates i = some p →
    findId (ingestAll plates blacklist calls) i = some p' →
    p.confidence ≤ p'.confidence := by
  induction calls with
  | nil =>
      intro plates i p p' h h'
      simp only [ingestAll, List.foldl_nil] at h'
      rw [h] at h'
      cases h'
      exact le_refl _
  | cons c cs ih =>
      intro plates i p p' h h'
      obtain ⟨q, hq, hconf, _⟩ :=
        plate_callback_aggregate_findId_step plates blacklist c.text c.confidence
          c.observedAt c.newId i p h
      have h2 : findId (ingestAll
          (plate_callback_aggregate plates blacklist c.text c.confidence c.observedAt c.newId)
          blacklist cs) i = some p' := by
        simpa [ingestAll] using h'
      exact le_trans hconf (ih _ _ _ _ hq h2)

/-- C6 counterexample: a higher-confidence read arriving with an earlier
observation time moves `last_appearance` backward (10 to 5), so monotonicity
of `last_appearance` fails for out-of-order arrival of observedAt
timestamps. -/
theorem C6_counterexample :
    (plate_callback_aggregate [] [] "AB1234".toList 50 10 1).map
        PlateRow.last_appearance = [10]
    ∧ (plate_callback_aggregate
        (plate_callback_aggregate [] [] "AB1234".toList 50 10 1)
        [] "AB1234".toList 60 5 2).map PlateRow.last_appearance = [5] := by
  exact ⟨by decide, by decide⟩

/-- C6 (amended): over any sequence of ingest calls the stored `confidence`
of a record never decreases; `last_appearance` never moves backward provided
the incoming observation time is not earlier than the record's current
`last_appearance` (the code sets it unconditionally, so an out-of-order
higher-confidence read can move it backward). -/
theorem C6_monotonicity :
    (∀ (plates : List PlateRow) (blacklist : List BlacklistRow)
        (calls : List IngestCall) (i : ℕ) (p p' : PlateRow),
      findId plates i = some p →
      findId (ingestAll plates blacklist calls) i = some p' →
      p.confidence ≤ p'.confidence)
    ∧ (∀ (plates : List PlateRow) (blacklist : List BlacklistRow)
        (c : IngestCall) (i : ℕ) (p p' : PlateRow),
      p.last_appearance ≤ c.observedAt →
      findId plates i = some p →
      findId (plate_callback_aggregate plates blacklist c.text c.confidence
        c.observedAt c.newId) i = some p' →
      p.last_appearance ≤ p'.last_appearance) := by
  refine ⟨fun plates blacklist calls i p p' h h' =>
      ingestAll_confidence_mono blacklist calls plates i p p' h h',
    fun plates blacklist c i p p' hla h h' => ?_⟩
  obtain ⟨q, hq, _, hlaq⟩ :=
    plate_callback_aggregate_findId_step plates blacklist c.text c.confidence
      c.observedAt c.newId i p h
  rw [hq] at h'
  cases h'
  exact hlaq hla

/-- Witness for C6 at a concrete run: one matched higher-confidence ingest;
the stored confidence rises from 70 to 80. -/
theorem C6_monotonicity_witness :
    (70 : ℚ) ≤ (80 : ℚ) :=
  C6_monotonicity.1
    [{ id := 1, plate_text := "AB1234".toList, confidence := 70,
       first_appearance := 0, last_appearance := 0, total_appearances := 1,
       is_blacklisted := false, reason := none, danger_level := none }] []
    [{ text := "AB1234".toList, confidence := 80, observedAt := 5, newId := 2 }] 1
    { id := 1, plate_text := "AB1234".toList, confidence := 70,
      first_appearance := 0, last_appearance := 0, total_appearances := 1,
      is_blacklisted := false, reason := none, danger_level := none }
    { id := 1, plate_text := "AB1234".toList, confidence := 80,
      first_appearance := 0, last_appearance := 5, total_appearances := 2,
      is_blacklisted := false, reason := none, danger_level := none }
    (by decide) (by decide)

/-- One row of the `plate_detections` table. `real_timestamp` is the value
extracted by `extract_timestamp_from_filename(source_file)`; the extraction
is a pure function of the file name, modelled here as an explicit argument to
`add_plate_detection`. -/
structure DetectionRow where
  id : ℕ
  plate_id : ℕ
  detection_time : ℚ
  real_timestamp : Option ℚ
  source_file : List Char
  confidence : ℚ
  plate_image_path : List Char
  frame_image_path : List Char
deriving DecidableEq

/-- The relational state owned by `DB`: the three tables the claims are
about, each in rowid order. -/
structure IdentityStore where
  plates : List PlateRow
  detections : List DetectionRow
  blacklist : List BlacklistRow
deriving DecidableEq

/-- DB.update_blacklist_status_for_plate (`database.py`): look up the single
blacklist entry whose `plate_text` equals the checked text; if it is absent
every plate similar to the checked text is unmarked, if present every such
plate is marked with that entry's reason and danger level. Other blacklist
entries are never consulted. -/
def update_blacklist_status_for_plate (plate_text_to_check : List Char)
    (st : IdentityStore) : IdentityStore :=
  match st.blacklist.find? (fun b => decide (b.plate_text = plate_text_to_check)) with
  | none =>
      { st with plates := st.plates.map fun p =>
          if is_similar_plate_default p.plate_text plate_text_to_check then
            { p with is_blacklisted := false, reason := none, danger_level := none }
          else p }
  | some b =>
      { st with plates := st.plates.map fun p =>
          if is_similar_plate_default p.plate_text plate_text_to_check then
            { p with is_blacklisted := true, reason := some b.reason,
                     danger_level := some b.danger_level }
          else p }

/-- DB.add_to_blacklist (`database.py`): INSERT OR REPLACE the entry keeping
the original `date_added` when one existed and setting `last_seen` to now,
then recompute plate statuses for the edited text. -/
def add_to_blacklist (pt reason danger_level : List Char) (now : ℚ)
    (st : IdentityStore) : IdentityStore :=
  let date_added := match st.blacklist.find? (fun b => decide (b.plate_text = pt)) with
    | some b => b.date_added
    | none => now
  update_blacklist_status_for_plate pt
    { st with blacklist :=
        st.blacklist.filter (fun b => decide (b.plate_text ≠ pt)) ++
          [{ plate_text := pt, reason := reason, danger_level := danger_level,
             date_added := date_added, last_seen := some now }] }

/-- DB.remove_from_blacklist (`database.py`): DELETE the entry, then
recompute plate statuses for the removed text. -/
def remove_from_blacklist (pt : List Char) (st : IdentityStore) : IdentityStore :=
  update_blacklist_status_for_plate pt
    { st with blacklist := st.blacklist.filter (fun b => decide (b.plate_text ≠ pt)) }

theorem find?_eq_filter_ne (l : List BlacklistRow) (pt : List Char) :
    (l.filter (fun b => decide (b.plate_text ≠ pt))).find?
      (fun b => decide (b.plate_text = pt)) = none := by
  induction l with
  | nil => rfl
  | cons a t ih =>
      by_cases ha : a.plate_text = pt
      · simp [List.filter_cons, ha, ih]
      · simp [List.filter_cons, ha, List.find?_cons, ih]

theorem find?_eq_filter_ne_append (l : List BlacklistRow) (pt : List Char)
    (nb : BlacklistRow) (hnb : nb.plate_text = pt) :
    ((l.filter (fun b => decide (b.plate_text ≠ pt))) ++ [nb]).find?
      (fun b => decide (b.plate_text = pt)) = some nb := by
  induction l with
  | nil => simp [List.find?_cons, hnb]
  | cons a t ih =>
      by_cases ha : a.plate_text = pt
      · simpa [List.filter_cons, ha] using ih
      · simpa [List.filter_cons, ha, List.find?_cons] using ih

/-- C2 counterexample: the plate "AB1234" matches both stored blacklist
entries "AB1234" and "AB1235"; removing only "AB1234" leaves "AB1235"
stored and still similar to the plate, yet the plate ends up unblacklisted,
because the removal recomputation consults only the removed entry. The
store below is ⟨plates, detections, blacklist⟩ with the plate row
⟨id, text, confidence, first, last, total, is_blacklisted, reason, level⟩
and blacklist rows ⟨text, reason, level, date_added, last_seen⟩. -/
theorem C2_counterexample :
    ((remove_from_blacklist "AB1234".toList
        ⟨[⟨1, "AB1234".toList, 70, 0, 0, 1, true, some "r".toList, some "HIGH".toList⟩],
          [],
          [⟨"AB1234".toList, "r".toList, "HIGH".toList, 0, none⟩,
            ⟨"AB1235".toList, "r".toList, "HIGH".toList, 0, none⟩]⟩).plates.map
        PlateRow.is_blacklisted = [false])
    ∧ ((remove_from_blacklist "AB1234".toList
        ⟨[⟨1, "AB1234".toList, 70, 0, 0, 1, true, some "r".toList, some "HIGH".toList⟩],
          [],
          [⟨"AB1234".toList, "r".toList, "HIGH".toList, 0, none⟩,
            ⟨"AB1235".toList, "r".toList, "HIGH".toList, 0, none⟩]⟩).blacklist.map
        BlacklistRow.plate_text = ["AB1235".toList])
    ∧ is_similar_plate_default "AB1234".toList "AB1235".toList = true := by
  exact ⟨by decide, by decide, by decide⟩

/-- C2 (amended): blacklist recomputation is based solely on the presence of
the single edited entry. After `remove(pt)` every plate similar to `pt` is
unmarked regardless of other stored entries (and all other plates keep their
status); after `addOrUpdate(pt, reason, level)` every plate similar to `pt`
is marked with that reason and level. The biconditional "blacklisted iff
some stored entry matches" therefore does not survive removals. -/
theorem C2_blacklist_recompute :
    (∀ (st : IdentityStore) (pt : List Char),
      (remove_from_blacklist pt st).plates =
        st.plates.map (fun p =>
          if is_similar_plate_default p.plate_text pt then
            { p with is_blacklisted := false, reason := none, danger_level := none }
          else p))
    ∧ (∀ (st : IdentityStore) (pt reason danger_level : List Char) (now : ℚ),
      (add_to_blacklist pt reason danger_level now st).plates =
        st.plates.map (fun p =>
          if is_similar_plate_default p.plate_text pt then
            { p with is_blacklisted := true, reason := some reason,
                     danger_level := some danger_level }
          else p)) := by
  constructor
  · intro st pt
    simp only [remove_from_blacklist, update_blacklist_status_for_plate]
    rw [find?_eq_filter_ne]
  · intro st pt reason danger_level now
    simp only [add_to_blacklist, update_blacklist_status_for_plate]
    rw [find?_eq_filter_ne_append st.blacklist pt
      ⟨pt, reason, danger_level,
        match st.blacklist.find? (fun b => decide (b.plate_text = pt)) with
        | some b => b.date_added
        | none => now,
        some now⟩ rfl]

/-- SQL `ORDER BY confidence DESC LIMIT 1`: a row carrying the maximal
confidence (ties resolved in favour of the earliest row). -/
def maxConfDetection : List DetectionRow → Option DetectionRow
  | [] => none
  | d :: ds =>
      some (ds.foldl (fun best q => if best.confidence < q.confidence then q else best) d)

/-- SQL condition `last_seen IS NULL OR last_seen < v`. -/
def lastSeenBefore (o : Option ℚ) (v : ℚ) : Bool :=
  match o with
  | none => true
  | some ls => decide (ls < v)

/-- Effect on one blacklist row of the UPDATE in `DB.add_plate_detection`:
`SET last_seen = v WHERE plate_text = pt AND (last_seen IS NULL OR
last_seen < v)`. -/
def lastSeenAdvance (pt : List Char) (v : ℚ) (b : BlacklistRow) : BlacklistRow :=
  if decide (b.plate_text = pt) && lastSeenBefore b.last_seen v then
    { b with last_seen := some v }
  else b

/-- Tail of `DB.add_plate_detection` (`database.py`): if the owning plate
exists and is blacklisted, run the `last_seen` UPDATE over the blacklist
with the given value; the WHERE clause compares `plate_text` for exact
equality with the plate's text. -/
def touch_blacklist_last_seen (st : IdentityStore) (pid : ℕ) (v : ℚ) :
    IdentityStore :=
  match findId st.plates pid with
  | some p =>
      if p.is_blacklisted then
        { st with blacklist := st.blacklist.map (lastSeenAdvance p.plate_text v) }
      else st
  | none => st

/-- Insertion path of `DB.add_plate_detection`: append the new detection row
and then update the blacklist `last_seen` using the real timestamp when
present, else the detection time (Python `real_timestamp_str or
detection_time_iso_str`). -/
def add_detection_insert (st : IdentityStore) (pid : ℕ) (detection_time : ℚ)
    (real_timestamp : Option ℚ) (source_file : List Char) (confidence : ℚ)
    (pp fp : List Char) (newId : ℕ) : IdentityStore :=
  touch_blacklist_last_seen
    { st with detections := st.detections ++
        [⟨newId, pid, detection_time, real_timestamp, source_file, confidence, pp, fp⟩] }
    pid (real_timestamp.getD detection_time)

/-- DB.add_plate_detection (`database.py`): look for the highest-confidence
detection of the same plate with `detection_time` in the window
`(detection_time − 1, detection_time]`. With a found row and a not-greater
confidence, return without writing. With a found row and a strictly greater
confidence, overwrite that row's confidence and image paths in place — and
then, because the source lacks an early return on this branch, fall through
to the insertion path as well. With no found row, just insert. -/
def add_plate_detection (st : IdentityStore) (pid : ℕ) (detection_time : ℚ)
    (real_timestamp : Option ℚ) (source_file : List Char) (confidence : ℚ)
    (pp fp : List Char) (newId : ℕ) : IdentityStore :=
  let recent := maxConfDetection (st.detections.filter (fun d =>
      decide (d.plate_id = pid) && decide (detection_time - 1 < d.detection_time)
        && decide (d.detection_time ≤ detection_time)))
  match recent with
  | some r =>
      if r.confidence < confidence then
        add_detection_insert
          { st with detections := st.detections.map (fun d =>
              if d.id = r.id then
                { d with confidence := confidence,
                         plate_image_path := pp, frame_image_path := fp }
              else d) }
          pid detection_time real_timestamp source_file confidence pp fp newId
      else st
  | none =>
      add_detection_insert st pid detection_time real_timestamp source_file
        confidence pp fp newId

/-- C3: at the failing input — one stored detection of plate 1 at time 10
with confidence 50, then a read of the same plate at time 10.5 with strictly
greater confidence 70 — the code overwrites the stored row in place and then
also inserts a second row, so two events of the same plate end up inside the
1-second window, contrary to the in-place-only dedup rule the claim (and the
method's own docstring) states. -/
theorem C3_missing_return :
    ((add_plate_detection
        ⟨[⟨1, "AB1234".toList, 70, 0, 0, 1, false, none, none⟩],
          [⟨1, 1, 10, none, "f".toList, 50, "a".toList, "b".toList⟩],
          []⟩
        1 (21/2) none "f".toList 70 "c".toList "d".toList 2).detections.map
      (fun d => (d.id, d.confidence, d.detection_time)) =
        [(1, 70, 10), (2, 70, 21/2)])
    ∧ ((add_plate_detection
        ⟨[⟨1, "AB1234".toList, 70, 0, 0, 1, false, none, none⟩],
          [⟨1, 1, 10, none, "f".toList, 50, "a".toList, "b".toList⟩],
          []⟩
        1 (21/2) none "f".toList 70 "c".toList "d".toList 2).detections.filter
      (fun d => decide (d.plate_id = 1) && decide ((21 : ℚ)/2 - 1 < d.detection_time)
        && decide (d.detection_time ≤ 21/2))).length = 2 := by
  exact ⟨by decide, by decide⟩

theorem touch_blacklist_last_seen_pos (st : IdentityStore) (pid : ℕ) (v : ℚ)
    (p : PlateRow) (hfind : findId st.plates pid = some p)
    (hbl : p.is_blacklisted = true) :
    (touch_blacklist_last_seen st pid v).blacklist =
      st.blacklist.map (lastSeenAdvance p.plate_text v) := by
  unfold touch_blacklist_last_seen
  rw [hfind]
  dsimp only
  rw [if_pos hbl]

theorem touch_blacklist_last_seen_neg (st : IdentityStore) (pid : ℕ) (v : ℚ)
    (p : PlateRow) (hfind : findId st.plates pid = some p)
    (hbl : p.is_blacklisted = false) :
    (touch_blacklist_last_seen st pid v).blacklist = st.blacklist := by
  unfold touch_blacklist_last_seen
  rw [hfind]
  dsimp only
  rw [if_neg (by simp [hbl])]

theorem touch_blacklist_last_seen_none (st : IdentityStore) (pid : ℕ) (v : ℚ)
    (hfind : findId st.plates pid = none) :
    (touch_blacklist_last_seen st pid v).blacklist = st.blacklist := by
  unfold touch_blacklist_last_seen
  rw [hfind]

/-- C9 counterexample: the plate "AB1234" is blacklisted because it is
similar to the stored entry "AB1235"; after a detection of it is appended,
that entry's `last_seen` is NOT advanced (it stays at 0 rather than moving
to 100), because the UPDATE matches `plate_text` for exact equality with the
plate's own text, and no entry is spelled "AB1234". -/
theorem C9_counterexample :
    is_similar_plate_default "AB1234".toList "AB1235".toList = true
    ∧ ((add_plate_detection
        ⟨[⟨1, "AB1234".toList, 70, 0, 0, 1, true, some "r".toList, some "HIGH".toList⟩],
          [],
          [⟨"AB1235".toList, "r".toList, "HIGH".toList, 0, some 0⟩]⟩
        1 100 none "f".toList 70 "c".toList "d".toList 1).blacklist.map
      BlacklistRow.last_seen = [some 0]) := by
  exact ⟨by decide, by decide⟩

/-- C9 (amended): a discarded read (a recent detection exists with
not-smaller confidence) leaves the whole store untouched. Whenever a
detection row is actually written (no recent detection, or the recent one
has strictly smaller confidence), the blacklist becomes exactly the map of
`lastSeenAdvance` with the owning plate's text and the value
`sourceTimestamp` when present else `observedAt` when that plate is
blacklisted, and is left unchanged when the plate is missing or not
blacklisted; `lastSeenAdvance` touches only entries whose `plate_text`
exactly equals the plate's text (similarity-matched entries are skipped)
and only ever moves `last_seen` forward: an entry is rewritten to the new
value exactly when its stored `last_seen` is absent or strictly smaller. -/
theorem C9_last_seen_update :
    (∀ (st : IdentityStore) (pid : ℕ) (detection_time : ℚ)
        (real_timestamp : Option ℚ) (source_file : List Char) (confidence : ℚ)
        (pp fp : List Char) (newId : ℕ),
      ((∃ r, maxConfDetection (st.detections.filter (fun d =>
            decide (d.plate_id = pid) && decide (detection_time - 1 < d.detection_time)
              && decide (d.detection_time ≤ detection_time))) = some r
          ∧ ¬ r.confidence < confidence) →
        add_plate_detection st pid detection_time real_timestamp source_file
          confidence pp fp newId = st)
      ∧ ((∀ r, maxConfDetection (st.detections.filter (fun d =>
            decide (d.plate_id = pid) && decide (detection_time - 1 < d.detection_time)
              && decide (d.detection_time ≤ detection_time))) = some r →
            r.confidence < confidence) →
          (∀ p, findId st.plates pid = some p → p.is_blacklisted = true →
            (add_plate_detection st pid detection_time real_timestamp source_file
                confidence pp fp newId).blacklist =
              st.blacklist.map
                (lastSeenAdvance p.plate_text (real_timestamp.getD detection_time)))
          ∧ (∀ p, findId st.plates pid = some p → p.is_blacklisted = false →
            (add_plate_detection st pid detection_time real_timestamp source_file
                confidence pp fp newId).blacklist = st.blacklist)
          ∧ (findId st.plates pid = none →
            (add_plate_detection st pid detection_time real_timestamp source_file
                confidence pp fp newId).blacklist = st.blacklist)))
    ∧ (∀ (pt : List Char) (v : ℚ) (b : BlacklistRow),
        (b.plate_text ≠ pt → lastSeenAdvance pt v b = b)
        ∧ (∀ ls, b.last_seen = some ls → ¬ ls < v → lastSeenAdvance pt v b = b)
        ∧ (b.plate_text = pt → lastSeenBefore b.last_seen v = true →
            lastSeenAdvance pt v b = { b with last_seen := some v })) := by
  constructor
  · intro st pid detection_time real_timestamp source_file confidence pp fp newId
    cases hrec : maxConfDetection (st.detections.filter (fun d =>
        decide (d.plate_id = pid) && decide (detection_time - 1 < d.detection_time)
          && decide (d.detection_time ≤ detection_time))) with
    | none =>
        constructor
        · rintro ⟨r, hr, _⟩
          exact Option.noConfusion hr
        · intro _
          unfold add_plate_detection
          rw [hrec]
          dsimp only
          unfold add_detection_insert
          exact ⟨fun p hfind hbl => touch_blacklist_last_seen_pos _ pid _ p hfind hbl,
            fun p hfind hbl => touch_blacklist_last_seen_neg _ pid _ p hfind hbl,
            fun hnone => touch_blacklist_last_seen_none _ pid _ hnone⟩
    | some r =>
        constructor
        · rintro ⟨r2, hr2, hnc⟩
          injection hr2 with hr2
          subst hr2
          unfold add_plate_detection
          rw [hrec]
          dsimp only
          rw [if_neg hnc]
        · intro hwrite
          have hc : r.confidence < confidence := hwrite r rfl
          unfold add_plate_detection
          rw [hrec]
          dsimp only
          rw [if_pos hc]
          unfold add_detection_insert
          exact ⟨fun p hfind hbl => touch_blacklist_last_seen_pos _ pid _ p hfind hbl,
            fun p hfind hbl => touch_blacklist_last_seen_neg _ pid _ p hfind hbl,
            fun hnone => touch_blacklist_last_seen_none _ pid _ hnone⟩
  · intro pt v b
    refine ⟨fun hne => ?_, fun ls hls hnlt => ?_, fun heq hbefore => ?_⟩
    · unfold lastSeenAdvance
      rw [if_neg]
      simp [hne]
    · unfold lastSeenAdvance
      rw [if_neg]
      simp [lastSeenBefore, hls, hnlt]
    · unfold lastSeenAdvance
      rw [if_pos]
      simp [heq, hbefore]

/-- Witness for C9 (amended) at a concrete store: a written detection of the
blacklisted plate "AB1234" advances the exactly-matching blacklist entry's
`last_seen` from 0 to the observation time 100. -/
theorem C9_last_seen_update_witness :
    (add_plate_detection
        ⟨[⟨1, "AB1234".toList, 70, 0, 0, 1, true, some "r".toList, some "HIGH".toList⟩],
          [],
          [⟨"AB1234".toList, "r".toList, "HIGH".toList, 0, some 0⟩]⟩
        1 100 none "f".toList 70 "c".toList "d".toList 2).blacklist =
      [⟨"AB1234".toList, "r".toList, "HIGH".toList, 0, some 100⟩] := by
  have h := ((C9_last_seen_update.1
      ⟨[⟨1, "AB1234".toList, 70, 0, 0, 1, true, some "r".toList, some "HIGH".toList⟩],
        [],
        [⟨"AB1234".toList, "r".toList, "HIGH".toList, 0, some 0⟩]⟩
      1 100 none "f".toList 70 "c".toList "d".toList 2).2
    (by intro r hr; simp [maxConfDetection] at hr)).1
    ⟨1, "AB1234".toList, 70, 0, 0, 1, true, some "r".toList, some "HIGH".toList⟩
    (by decide) rfl
  rw [h]
  decide


/-- Consecutive differences of a list of detection times, as computed by
`calculate_time_difference` (`utils.py`) over adjacent pairs of the sorted
list: the absolute difference in seconds. -/
def consecIntervals : List ℚ → List ℚ
  | a :: b :: rest => |b - a| :: consecIntervals (b :: rest)
  | _ => []

/-- The valid intervals of `is_potential_follow` (`utils.py`): sort the
detection times ascending, form consecutive intervals, and drop every
interval strictly below the minimum (near-duplicate noise). -/
def validIntervalsOf (detections : List ℚ) (min_interval_seconds : ℚ) : List ℚ :=
  (consecIntervals (List.insertionSort (fun a b : ℚ => a ≤ b) detections)).filter
    (fun x => decide (min_interval_seconds ≤ x))

/-- utils.is_potential_follow: the camera-following heuristic. Fewer than 3
detections fail immediately; otherwise the valid intervals decide. The
Python call sites use `threshold_seconds` from settings (default 300) and
`min_interval_seconds = 2`. -/
def is_potential_follow (detections : List ℚ)
    (threshold_seconds min_interval_seconds : ℚ) : Bool × String :=
  if detections.length < 3 then (false, "Not enough detections")
  else
    let valid := validIntervalsOf detections min_interval_seconds
    let consistent := valid.all (fun x => decide (x ≤ threshold_seconds))
    if valid = [] then (false, "No valid detection intervals found")
    else if valid.length < 2 then
      (false, "Not enough valid intervals (" ++ toString valid.length ++ ") after filtering")
    else if consistent && decide (valid.sum / valid.length < threshold_seconds) then
      (true, "Multiple detections with average interval " ++
        toString ⌊valid.sum / (valid.length : ℚ)⌋ ++ " seconds")
    else (false, "Inconsistent detection pattern")

theorem ipf_short (detections : List ℚ) (thr mi : ℚ)
    (h1 : detections.length < 3) :
    is_potential_follow detections thr mi = (false, "Not enough detections") := by
  simp [is_potential_follow, h1]

theorem ipf_few_valid (detections : List ℚ) (thr mi : ℚ)
    (h1 : ¬ detections.length < 3)
    (h2 : (validIntervalsOf detections mi).length < 2) :
    (is_potential_follow detections thr mi).1 = false := by
  simp only [is_potential_follow, if_neg h1]
  by_cases he : validIntervalsOf detections mi = []
  · simp [he]
  · simp [he, h2]

theorem ipf_inconsistent (detections : List ℚ) (thr mi : ℚ)
    (h1 : ¬ detections.length < 3)
    (h2 : 2 ≤ (validIntervalsOf detections mi).length)
    (hx : ∃ x ∈ validIntervalsOf detections mi, thr < x) :
    is_potential_follow detections thr mi = (false, "Inconsistent detection pattern") := by
  have hne : validIntervalsOf detections mi ≠ [] := by
    intro h
    rw [h] at h2
    simp at h2
  have hlt : ¬ (validIntervalsOf detections mi).length < 2 := Nat.not_lt.mpr h2
  have hall : (validIntervalsOf detections mi).all (fun x => decide (x ≤ thr)) = false := by
    obtain ⟨x, hmem, hgt⟩ := hx
    rw [List.all_eq_false]
    exact ⟨x, hmem, by simp [not_le.mpr hgt]⟩
  simp [is_potential_follow, h1, hne, hlt, hall]

theorem ipf_true_iff (detections : List ℚ) (thr mi : ℚ)
    (h1 : ¬ detections.length < 3)
    (h2 : 2 ≤ (validIntervalsOf detections mi).length) :
    ((is_potential_follow detections thr mi).1 = true ↔
      (∀ x ∈ validIntervalsOf detections mi, x ≤ thr)
        ∧ (validIntervalsOf detections mi).sum /
            ((validIntervalsOf detections mi).length : ℚ) < thr) := by
  have hne : validIntervalsOf detections mi ≠ [] := by
    intro h
    rw [h] at h2
    simp at h2
  have hlt : ¬ (validIntervalsOf detections mi).length < 2 := Nat.not_lt.mpr h2
  simp only [is_potential_follow, if_neg h1, if_neg hne, if_neg hlt]
  by_cases hb : ((validIntervalsOf detections mi).all (fun x => decide (x ≤ thr))
      && decide ((validIntervalsOf detections mi).sum /
        ((validIntervalsOf detections mi).length : ℚ) < thr)) = true
  · rw [if_pos hb]
    simp only [Bool.and_eq_true, List.all_eq_true, decide_eq_true_eq] at hb
    exact ⟨fun _ => ⟨hb.1, hb.2⟩, fun _ => rfl⟩
  · rw [if_neg hb]
    constructor
    · intro h
      exact absurd h (by simp)
    · rintro ⟨hall, havg⟩
      exfalso
      apply hb
      simp only [Bool.and_eq_true, List.all_eq_true, decide_eq_true_eq]
      exact ⟨hall, havg⟩

theorem ipf_true_reason (detections : List ℚ) (thr mi : ℚ)
    (hres : (is_potential_follow detections thr mi).1 = true) :
    (is_potential_follow detections thr mi).2 =
      "Multiple detections with average interval " ++
        toString ⌊(validIntervalsOf detections mi).sum /
          ((validIntervalsOf detections mi).length : ℚ)⌋ ++ " seconds" := by
  by_cases h1 : detections.length < 3
  · rw [ipf_short detections thr mi h1] at hres
    exact absurd hres (by simp)
  by_cases he : validIntervalsOf detections mi = []
  · simp [is_potential_follow, h1, he] at hres
  by_cases hl : (validIntervalsOf detections mi).length < 2
  · simp [is_potential_follow, h1, he, hl] at hres
  by_cases hb : ((validIntervalsOf detections mi).all (fun x => decide (x ≤ thr))
      && decide ((validIntervalsOf detections mi).sum /
        ((validIntervalsOf detections mi).length : ℚ) < thr)) = true
  · simp [is_potential_follow, h1, he, hl, hb]
  · simp [is_potential_follow, h1, he, hl, hb] at hres

/-- C7: the follow heuristic returns (false, "Not enough detections") below
3 detections; with fewer than 2 valid intervals after sorting and filtering
it returns false; with at least 2 valid intervals it returns the
inconsistent-pattern verdict as soon as some valid interval exceeds the
threshold, returns true exactly when all valid intervals are at most the
threshold and their mean is strictly below it, and in the true case reports
the floor of the average interval. -/
theorem C7_following_heuristic (detections : List ℚ) (thr mi : ℚ) :
    (detections.length < 3 →
      is_potential_follow detections thr mi = (false, "Not enough detections"))
    ∧ (¬ detections.length < 3 → (validIntervalsOf detections mi).length < 2 →
        (is_potential_follow detections thr mi).1 = false)
    ∧ (¬ detections.length < 3 → 2 ≤ (validIntervalsOf detections mi).length →
        (∃ x ∈ validIntervalsOf detections mi, thr < x) →
        is_potential_follow detections thr mi =
          (false, "Inconsistent detection pattern"))
    ∧ (¬ detections.length < 3 → 2 ≤ (validIntervalsOf detections mi).length →
        ((is_potential_follow detections thr mi).1 = true ↔
          (∀ x ∈ validIntervalsOf detections mi, x ≤ thr)
            ∧ (validIntervalsOf detections mi).sum /
                ((validIntervalsOf detections mi).length : ℚ) < thr))
    ∧ ((is_potential_follow detections thr mi).1 = true →
        (is_potential_follow detections thr mi).2 =
          "Multiple detections with average interval " ++
            toString ⌊(validIntervalsOf detections mi).sum /
              ((validIntervalsOf detections mi).length : ℚ)⌋ ++ " seconds") :=
  ⟨ipf_short detections thr mi,
    ipf_few_valid detections thr mi,
    ipf_inconsistent detections thr mi,
    ipf_true_iff detections thr mi,
    ipf_true_reason detections thr mi⟩

/-- Witness for C7 at the spec's example: intervals [30, 45, 20000] with
threshold 300 give the inconsistent-pattern verdict. -/
theorem C7_following_heuristic_witness :
    is_potential_follow [0, 30, 75, 20075] 300 2 =
      (false, "Inconsistent detection pattern") :=
  (C7_following_heuristic [0, 30, 75, 20075] 300 2).2.2.1 (by decide) (by decide)
    ⟨20000, by decide, by decide⟩

/-- View of a `plates` row as read by the correlation pass
(`DB.analyze_similar_plates`): the `confidence` REAL column is nullable and
`first_appearance` is an ISO string that may be absent or unparseable (the
source guards both), so both are optional here. -/
structure AnaPlate where
  id : ℕ
  plate_text : List Char
  confidence : Option ℚ
  first_appearance : Option ℚ
deriving DecidableEq

/-- Content of the `detection_note` produced by the correlation pass; the
rendered f-strings of the source are abstracted to their content: which
plate is named as more confident and with what confidence. -/
inductive DetectionNote where
  | higherConfidence (plate_text : List Char) (confidence : ℚ)
  | similarConfidence
  | unclear
deriving DecidableEq

/-- One row of the `similar_plates` table. -/
structure SimilarPairRow where
  plate_id1 : ℕ
  plate_id2 : ℕ
  similarity_score : ℚ
  time_diff_seconds : Option ℚ
  detection_note : DetectionNote
deriving DecidableEq

/-- Note computation of DB.analyze_similar_plates: `conf_diff` is the
absolute gap when both confidences are present and 0 otherwise; a gap above
15 points names the higher-confidence plate, otherwise two present
confidences give "Similar confidence levels", else the difference is
unclear. -/
def mkDetectionNote (t1 t2 : List Char) (c1 c2 : Option ℚ) : DetectionNote :=
  let conf_diff : ℚ := match c1, c2 with
    | some a, some b => |a - b|
    | _, _ => 0
  if 15 < conf_diff then
    match c1, c2 with
    | some a, some b =>
        if b < a then .higherConfidence t1 a else .higherConfidence t2 b
    | _, _ => .unclear
  else if c1.isSome && c2.isSome then .similarConfidence
  else .unclear

/-- Row recorded by DB.analyze_similar_plates for an accepted pair: the
similarity ratio of the trimmed texts, the absolute difference of the first
appearances when both parse, and the confidence note. -/
def mkSimilarPair (p1 p2 : AnaPlate) : SimilarPairRow :=
  { plate_id1 := p1.id, plate_id2 := p2.id,
    similarity_score := levRatio (pyStrip p1.plate_text) (pyStrip p2.plate_text),
    time_diff_seconds := match p1.first_appearance, p2.first_appearance with
      | some a, some b => some |b - a|
      | _, _ => none,
    detection_note := mkDetectionNote (pyStrip p1.plate_text) (pyStrip p2.plate_text)
      p1.confidence p2.confidence }

/-- Acceptance test for a visited pair: distinct trimmed texts and the
Similarity Predicate at the passed thresholds. -/
def pairAccepted (dT rT : ℚ) (p1 p2 : AnaPlate) : Bool :=
  !(decide (pyStrip p1.plate_text = pyStrip p2.plate_text))
    && is_similar_plate (pyStrip p1.plate_text) (pyStrip p2.plate_text) dT rT

/-- Accumulator of the scan: pairs recorded so far and the
`processed_pairs` set (kept as a list of id pairs in insertion order). -/
structure ScanAcc where
  result : List SimilarPairRow
  processed : List (ℕ × ℕ)
deriving DecidableEq

/-- Body of the inner loop of DB.analyze_similar_plates for outer plate `p1`
and inner plate `p2`: skip identical trimmed texts and pairs already in
`processed_pairs`, then on a similarity hit record the pair and mark it
processed. -/
def visitPair (dT rT : ℚ) (p1 : AnaPlate) (acc : ScanAcc) (p2 : AnaPlate) : ScanAcc :=
  if pyStrip p1.plate_text = pyStrip p2.plate_text
      ∨ (p2.id, p1.id) ∈ acc.processed then acc
  else if is_similar_plate (pyStrip p1.plate_text) (pyStrip p2.plate_text) dT rT then
    { result := acc.result ++ [mkSimilarPair p1 p2],
      processed := acc.processed ++ [(p1.id, p2.id)] }
  else acc

/-- Outer loop of DB.analyze_similar_plates: each plate is compared with the
plates after it. -/
def scanPlates (dT rT : ℚ) : List AnaPlate → ScanAcc → ScanAcc
  | [], acc => acc
  | p :: rest, acc => scanPlates dT rT rest (rest.foldl (visitPair dT rT p) acc)

/-- State visible to the correlation pass: the plates and the cached
`similar_plates` table. -/
structure AnaState where
  plates : List AnaPlate
  similar_plates : List SimilarPairRow
deriving DecidableEq

/-- DB.analyze_similar_plates: DELETE all cached pairs, then run the
upper-triangular scan over the plates and store the found pairs. -/
def analyze_similar_plates (dT rT : ℚ) (st : AnaState) : AnaState :=
  let cleared : AnaState := { st with similar_plates := [] }
  { cleared with
    similar_plates := (scanPlates dT rT cleared.plates ⟨[], []⟩).result }

/-- Closed form of the scan when the `processed_pairs` check never fires:
each plate contributes one recorded pair per accepted later plate. -/
def scanPairsSimple (dT rT : ℚ) : List AnaPlate → List SimilarPairRow
  | [] => []
  | p :: rest =>
      (rest.filter (fun q => pairAccepted dT rT p q)).map (mkSimilarPair p)
        ++ scanPairsSimple dT rT rest

/-- Number of stored rows joining the unordered id pair {a, b}. -/
def pairRowCount (l : List SimilarPairRow) (a b : ℕ) : ℕ :=
  l.countP (fun sp => (decide (sp.plate_id1 = a) && decide (sp.plate_id2 = b))
    || (decide (sp.plate_id1 = b) && decide (sp.plate_id2 = a)))

theorem visit_fold (dT rT : ℚ) (p : AnaPlate) (ys : List AnaPlate) (acc : ScanAcc)
    (hproc : ∀ ab ∈ acc.processed, ab.1 ∉ ys.map AnaPlate.id)
    (hp : p.id ∉ ys.map AnaPlate.id) :
    (ys.foldl (visitPair dT rT p) acc).result =
        acc.result ++ (ys.filter (fun q => pairAccepted dT rT p q)).map (mkSimilarPair p)
    ∧ ∀ ab ∈ (ys.foldl (visitPair dT rT p) acc).processed,
        ab.1 = p.id ∨ ab ∈ acc.processed := by
  induction ys generalizing acc with
  | nil => exact ⟨by simp, fun ab hab => Or.inr hab⟩
  | cons y ys ih =>
      have hyin : (y.id, p.id) ∉ acc.processed := by
        intro hmem
        exact hproc _ hmem (by simp)
      have hproc' : ∀ ab ∈ acc.processed, ab.1 ∉ ys.map AnaPlate.id := by
        intro ab hab hmem
        exact hproc ab hab (by simp [hmem])
      have hp' : p.id ∉ ys.map AnaPlate.id := by
        intro hmem
        exact hp (by simp [hmem])
      rw [List.foldl_cons]
      by_cases hskip : pyStrip p.plate_text = pyStrip y.plate_text
      · have hv : visitPair dT rT p acc y = acc := by
          simp [visitPair, hskip]
        have hacc : pairAccepted dT rT p y = false := by
          simp [pairAccepted, hskip]
        rw [hv]
        obtain ⟨h1, h2⟩ := ih acc hproc' hp'
        exact ⟨by rw [h1]; simp [List.filter_cons, hacc], h2⟩
      · by_cases hsim : is_similar_plate (pyStrip p.plate_text) (pyStrip y.plate_text) dT rT = true
        · have hv : visitPair dT rT p acc y =
              ⟨acc.result ++ [mkSimilarPair p y], acc.processed ++ [(p.id, y.id)]⟩ := by
            simp [visitPair, hskip, hyin, hsim]
          have hacc : pairAccepted dT rT p y = true := by
            simp [pairAccepted, hskip, hsim]
          rw [hv]
          have hproc2 : ∀ ab ∈ (acc.processed ++ [(p.id, y.id)]),
              ab.1 ∉ ys.map AnaPlate.id := by
            intro ab hab
            rcases List.mem_append.mp hab with h | h
            · exact hproc' ab h
            · simp at h
              rw [h]
              exact hp'
          obtain ⟨h1, h2⟩ := ih ⟨acc.result ++ [mkSimilarPair p y],
            acc.processed ++ [(p.id, y.id)]⟩ hproc2 hp'
          constructor
          · rw [h1]
            simp [List.filter_cons, hacc]
          · intro ab hab
            rcases h2 ab hab with h | h
            · exact Or.inl h
            · rcases List.mem_append.mp h with h | h
              · exact Or.inr h
              · simp at h
                exact Or.inl (by rw [h])
        · have hv : visitPair dT rT p acc y = acc := by
            simp [visitPair, hskip, hyin, hsim]
          have hacc : pairAccepted dT rT p y = false := by
            simp [pairAccepted, hsim]
          rw [hv]
          obtain ⟨h1, h2⟩ := ih acc hproc' hp'
          exact ⟨by rw [h1]; simp [List.filter_cons, hacc], h2⟩

theorem scan_eq_simple (dT rT : ℚ) (xs : List AnaPlate) (acc : ScanAcc)
    (hnd : (xs.map AnaPlate.id).Nodup)
    (hproc : ∀ ab ∈ acc.processed, ab.1 ∉ xs.map AnaPlate.id) :
    (scanPlates dT rT xs acc).result = acc.result ++ scanPairsSimple dT rT xs := by
  induction xs generalizing acc with
  | nil => simp [scanPlates, scanPairsSimple]
  | cons p rest ih =>
      rw [List.map_cons] at hnd
      have hnd' : (rest.map AnaPlate.id).Nodup := (List.nodup_cons.mp hnd).2
      have hp : p.id ∉ rest.map AnaPlate.id := (List.nodup_cons.mp hnd).1
      obtain ⟨h1, h2⟩ := visit_fold dT rT p rest acc
        (fun ab hab hmem => hproc ab hab (by simp [hmem])) hp
      rw [scanPlates, ih _ hnd' ?_, h1]
      · simp [scanPairsSimple]
      · intro ab hab
        rcases h2 ab hab with h | h
        · rw [h]
          exact hp
        · intro hmem
          exact hproc ab h (by simp [hmem])

theorem scanPairsSimple_ids (dT rT : ℚ) (xs : List AnaPlate) :
    ∀ sp ∈ scanPairsSimple dT rT xs,
      sp.plate_id1 ∈ xs.map AnaPlate.id ∧ sp.plate_id2 ∈ xs.map AnaPlate.id := by
  induction xs with
  | nil => simp [scanPairsSimple]
  | cons p rest ih =>
      intro sp hsp
      rw [scanPairsSimple] at hsp
      rcases List.mem_append.mp hsp with h | h
      · obtain ⟨q, hq, hmk⟩ := List.mem_map.mp h
        have hqr : q ∈ rest := List.mem_of_mem_filter hq
        constructor
        · rw [← hmk]
          simp [mkSimilarPair]
        · rw [← hmk]
          simp only [mkSimilarPair, List.map_cons, List.mem_cons]
          exact Or.inr (List.mem_map_of_mem _ hqr)
      · have h2 := ih sp h
        exact ⟨by simp only [List.map_cons, List.mem_cons]; exact Or.inr h2.1,
          by simp only [List.map_cons, List.mem_cons]; exact Or.inr h2.2⟩

theorem countP_id_le_one (rest : List AnaPlate)
    (hnd : (rest.map AnaPlate.id).Nodup) (b : ℕ) :
    rest.countP (fun q => decide (q.id = b)) ≤ 1 := by
  induction rest with
  | nil => simp
  | cons q t ih =>
      rw [List.map_cons, List.nodup_cons] at hnd
      rw [List.countP_cons]
      by_cases hq : q.id = b
      · have ht : t.countP (fun r => decide (r.id = b)) = 0 := by
          rw [List.countP_eq_zero]
          intro r hr
          simp only [decide_eq_true_eq]
          intro hrb
          exact hnd.1 (by rw [← hq] at hrb; rw [← hrb]; exact List.mem_map_of_mem _ hr)
        simp [hq, ht]
      · simpa [hq] using ih hnd.2

theorem scanPairsSimple_count_le_one (dT rT : ℚ) (xs : List AnaPlate)
    (hnd : (xs.map AnaPlate.id).Nodup) (a b : ℕ) :
    pairRowCount (scanPairsSimple dT rT xs) a b ≤ 1 := by
  induction xs with
  | nil => simp [scanPairsSimple, pairRowCount]
  | cons p rest ih =>
      rw [List.map_cons, List.nodup_cons] at hnd
      rw [scanPairsSimple]
      unfold pairRowCount
      rw [List.countP_append, List.countP_map]
      have hsubl : (rest.filter (fun q => pairAccepted dT rT p q)).Sublist rest :=
        List.filter_sublist rest
      by_cases hpa : p.id = a
      · have htail : (scanPairsSimple dT rT rest).countP
            (fun sp => (decide (sp.plate_id1 = a) && decide (sp.plate_id2 = b))
              || (decide (sp.plate_id1 = b) && decide (sp.plate_id2 = a))) = 0 := by
          rw [List.countP_eq_zero]
          intro sp hsp
          have hids := scanPairsSimple_ids dT rT rest sp hsp
          simp only [Bool.or_eq_true, Bool.and_eq_true, decide_eq_true_eq]
          rintro (⟨h1, _⟩ | ⟨_, h2⟩)
          · exact hnd.1 (by rw [hpa, ← h1]; exact hids.1)
          · exact hnd.1 (by rw [hpa, ← h2]; exact hids.2)
        rw [htail, Nat.add_zero]
        by_cases hab : a = b
        · have hhead : (rest.filter (fun q => pairAccepted dT rT p q)).countP
              ((fun sp => (decide (sp.plate_id1 = a) && decide (sp.plate_id2 = b))
                || (decide (sp.plate_id1 = b) && decide (sp.plate_id2 = a)))
                ∘ mkSimilarPair p) = 0 := by
            rw [List.countP_eq_zero]
            intro q hq
            have hqr : q ∈ rest := List.mem_of_mem_filter hq
            simp only [Function.comp, mkSimilarPair, Bool.or_eq_true, Bool.and_eq_true,
              decide_eq_true_eq]
            rintro (⟨_, h2⟩ | ⟨_, h2⟩)
            · exact hnd.1 (by rw [hpa, hab, ← h2]; exact List.mem_map_of_mem _ hqr)
            · exact hnd.1 (by rw [hpa, ← h2]; exact List.mem_map_of_mem _ hqr)
          rw [hhead]
          exact Nat.zero_le 1
        · have hhead : (rest.filter (fun q => pairAccepted dT rT p q)).countP
              ((fun sp => (decide (sp.plate_id1 = a) && decide (sp.plate_id2 = b))
                || (decide (sp.plate_id1 = b) && decide (sp.plate_id2 = a)))
                ∘ mkSimilarPair p) =
              (rest.filter (fun q => pairAccepted dT rT p q)).countP
                (fun q => decide (q.id = b)) := by
            apply List.countP_congr
            intro q _
            simp only [Function.comp, mkSimilarPair]
            by_cases hqb : q.id = b
            · simp [hpa, hqb]
            · have hpb : ¬ p.id = b := by rw [hpa]; exact hab
              simp [hpa, hqb, hpb, hab]
          rw [hhead]
          exact le_trans (hsubl.countP_le _) (countP_id_le_one rest hnd.2 b)
      · by_cases hpb : p.id = b
        · have htail : (scanPairsSimple dT rT rest).countP
              (fun sp => (decide (sp.plate_id1 = a) && decide (sp.plate_id2 = b))
                || (decide (sp.plate_id1 = b) && decide (sp.plate_id2 = a))) = 0 := by
            rw [List.countP_eq_zero]
            intro sp hsp
            have hids := scanPairsSimple_ids dT rT rest sp hsp
            simp only [Bool.or_eq_true, Bool.and_eq_true, decide_eq_true_eq]
            rintro (⟨_, h2⟩ | ⟨h1, _⟩)
            · exact hnd.1 (by rw [hpb, ← h2]; exact hids.2)
            · exact hnd.1 (by rw [hpb, ← h1]; exact hids.1)
          rw [htail, Nat.add_zero]
          have hhead : (rest.filter (fun q => pairAccepted dT rT p q)).countP
              ((fun sp => (decide (sp.plate_id1 = a) && decide (sp.plate_id2 = b))
                || (decide (sp.plate_id1 = b) && decide (sp.plate_id2 = a)))
                ∘ mkSimilarPair p) =
              (rest.filter (fun q => pairAccepted dT rT p q)).countP
                (fun q => decide (q.id = a)) := by
            apply List.countP_congr
            intro q _
            simp only [Function.comp, mkSimilarPair]
            by_cases hqa : q.id = a
            · simp [hpb, hqa]
            · simp [hpa, hpb, hqa]
              intro hba
              exact absurd (hpb.trans hba) hpa
          rw [hhead]
          exact le_trans (hsubl.countP_le _) (countP_id_le_one rest hnd.2 a)
        · have hhead : (rest.filter (fun q => pairAccepted dT rT p q)).countP
              ((fun sp => (decide (sp.plate_id1 = a) && decide (sp.plate_id2 = b))
                || (decide (sp.plate_id1 = b) && decide (sp.plate_id2 = a)))
                ∘ mkSimilarPair p) = 0 := by
            rw [List.countP_eq_zero]
            intro q _
            simp [Function.comp, mkSimilarPair, hpa, hpb]
          rw [hhead, Nat.zero_add]
          exact ih hnd.2

theorem pair_mem_scanPairsSimple (dT rT : ℚ) (l1 : List AnaPlate) (p : AnaPlate)
    (l2 : List AnaPlate) (q : AnaPlate) (l3 : List AnaPlate)
    (hacc : pairAccepted dT rT p q = true) :
    mkSimilarPair p q ∈ scanPairsSimple dT rT (l1 ++ p :: l2 ++ q :: l3) := by
  induction l1 with
  | nil =>
      rw [List.nil_append]
      simp only [scanPairsSimple]
      apply List.mem_append_left
      apply List.mem_map_of_mem
      exact List.mem_filter.mpr ⟨by simp, hacc⟩
  | cons x l1 ih =>
      rw [List.cons_append]
      simp only [scanPairsSimple]
      exact List.mem_append_right _ ih

/-- C8: a correlation-pass run replaces the cached table with pairs computed
from the plates alone (the old rows are gone and irrelevant); with distinct
plate ids the scan equals the upper-triangular closed form that skips
identical trimmed texts and keeps pairs passing the Similarity Predicate;
each unordered id pair gets at most one row, and each ordered pair of
distinct stored plates that passes the test gets exactly one; the stored
`time_diff_seconds` is the absolute difference of the first appearances and
the note names the higher-confidence plate exactly when the gap exceeds 15
points, with "similar confidence levels" otherwise when both confidences
are present. -/
theorem C8_correlation_pass (dT rT : ℚ) (st : AnaState)
    (hnd : (st.plates.map AnaPlate.id).Nodup) :
    ((analyze_similar_plates dT rT st).similar_plates =
        scanPairsSimple dT rT st.plates)
    ∧ (∀ st₂ : AnaState, st₂.plates = st.plates →
        (analyze_similar_plates dT rT st₂).similar_plates =
          (analyze_similar_plates dT rT st).similar_plates)
    ∧ (∀ a b, pairRowCount ((analyze_similar_plates dT rT st).similar_plates) a b ≤ 1)
    ∧ (∀ l1 (p : AnaPlate) l2 (q : AnaPlate) l3,
        st.plates = l1 ++ p :: l2 ++ q :: l3 →
        pairAccepted dT rT p q = true →
        pairRowCount ((analyze_similar_plates dT rT st).similar_plates) p.id q.id = 1)
    ∧ (∀ (p q : AnaPlate) (a b : ℚ),
        p.first_appearance = some a → q.first_appearance = some b →
        (mkSimilarPair p q).time_diff_seconds = some |b - a|)
    ∧ (∀ (t1 t2 : List Char) (a b : ℚ),
        (15 < |a - b| → b < a →
          mkDetectionNote t1 t2 (some a) (some b) = .higherConfidence t1 a)
        ∧ (15 < |a - b| → a < b →
          mkDetectionNote t1 t2 (some a) (some b) = .higherConfidence t2 b)
        ∧ (¬ 15 < |a - b| →
          mkDetectionNote t1 t2 (some a) (some b) = .similarConfidence)) := by
  have hsimple : (analyze_similar_plates dT rT st).similar_plates =
      scanPairsSimple dT rT st.plates := by
    show (scanPlates dT rT st.plates ⟨[], []⟩).result = _
    rw [scan_eq_simple dT rT st.plates ⟨[], []⟩ hnd (by intro ab hab; simp at hab)]
    rw [List.nil_append]
  refine ⟨hsimple, ?_, ?_, ?_, ?_, ?_⟩
  · intro st₂ h
    simp only [analyze_similar_plates]
    rw [h]
  · intro a b
    rw [hsimple]
    exact scanPairsSimple_count_le_one dT rT st.plates hnd a b
  · intro l1 p l2 q l3 hdec hacc
    rw [hsimple]
    apply Nat.le_antisymm
    · exact scanPairsSimple_count_le_one dT rT st.plates hnd p.id q.id
    · have hmem : mkSimilarPair p q ∈ scanPairsSimple dT rT st.plates := by
        rw [hdec]
        exact pair_mem_scanPairsSimple dT rT l1 p l2 q l3 hacc
      have hpos : 0 < pairRowCount (scanPairsSimple dT rT st.plates) p.id q.id := by
        unfold pairRowCount
        rw [List.countP_pos_iff]
        exact ⟨mkSimilarPair p q, hmem, by simp [mkSimilarPair]⟩
      omega
  · intro p q a b h1 h2
    simp [mkSimilarPair, h1, h2]
  · intro t1 t2 a b
    refine ⟨fun hgap hlt => ?_, fun hgap hlt => ?_, fun hgap => ?_⟩
    · simp [mkDetectionNote, hgap, hlt]
    · have hnlt : ¬ b < a := lt_asymm hlt
      simp [mkDetectionNote, hgap, hnlt]
    · simp [mkDetectionNote, hgap]

/-- Witness for C8 at a concrete store: two stored plates "AB1234" and
"AB1235" (distinct ids, similar texts, confidences 90 and 60) yield exactly
one cached pair for the unordered id pair {1, 2}, a stale cached row
notwithstanding. -/
theorem C8_correlation_pass_witness :
    pairRowCount ((analyze_similar_plates 2 (4/5)
        ⟨[⟨1, "AB1234".toList, some 90, some 0⟩,
          ⟨2, "AB1235".toList, some 60, some 30⟩],
          [⟨7, 7, 0, none, DetectionNote.unclear⟩]⟩).similar_plates) 1 2 = 1 :=
  (C8_correlation_pass 2 (4/5)
      ⟨[⟨1, "AB1234".toList, some 90, some 0⟩,
        ⟨2, "AB1235".toList, some 60, some 30⟩],
        [⟨7, 7, 0, none, DetectionNote.unclear⟩]⟩
      (by decide)).2.2.2.1
    [] ⟨1, "AB1234".toList, some 90, some 0⟩
    [] ⟨2, "AB1235".toList, some 60, some 30⟩ [] rfl (by decide)

/-- A typed settings value: the four `setting_type` variants of the
`settings` table. -/
inductive SettingVal where
  | int (n : ℤ)
  | float (q : ℚ)
  | bool (b : Bool)
  | str (s : List Char)
deriving DecidableEq

/-- One row of the `settings` table. The table stores values as TEXT next to
a `setting_type` tag; `set_setting` always writes the rendered value with
the matching tag and `_convert_setting_value` parses it back by that tag, so
the TEXT round-trip is the identity on values and the row is modelled with
the typed value directly. -/
structure SettingRow where
  setting_name : List Char
  setting_value : SettingVal
  setting_type : List Char
deriving DecidableEq

/-- DB.set_setting (`database.py`): determine the type tag from the value
and INSERT OR REPLACE the row (the unique-key replacement is modelled as
filter-out plus append, as for the blacklist). -/
def set_setting (settings : List SettingRow) (sn : List Char) (sv : SettingVal) :
    List SettingRow :=
  let ty : List Char := match sv with
    | .bool _ => "boolean".toList
    | .int _ => "integer".toList
    | .float _ => "float".toList
    | .str _ => "string".toList
  settings.filter (fun r => decide (r.setting_name ≠ sn)) ++ [⟨sn, sv, ty⟩]

/-- DB.get_setting (`database.py`): a stored row is converted back by its
type tag and returned (the identity here, see `SettingRow`), the store
untouched. An absent name returns the supplied default — except that an
absent name equal to 'min_confidence' with a non-None default writes the
value 30 through `set_setting` and returns 30, ignoring the default. The
pair returned is (result, store after the call). -/
def get_setting (settings : List SettingRow) (sn : List Char)
    (default : Option SettingVal) : Option SettingVal × List SettingRow :=
  match settings.find? (fun r => decide (r.setting_name = sn)) with
  | none =>
      if default.isSome ∧ sn = "min_confidence".toList then
        (some (.int 30), set_setting settings sn (.int 30))
      else (default, settings)
  | some r => (some r.setting_value, settings)

/-- C10: for a name absent from the settings store, `get_setting` returns
the supplied default and leaves the store unchanged — except for
'min_confidence' with a non-None default, where it writes 30 into the store
and returns 30, ignoring the supplied default. -/
theorem C10_get_setting_absent (settings : List SettingRow) (sn : List Char)
    (default : Option SettingVal)
    (habs : settings.find? (fun r => decide (r.setting_name = sn)) = none) :
    (¬ (default.isSome ∧ sn = "min_confidence".toList) →
      get_setting settings sn default = (default, settings))
    ∧ (default.isSome → sn = "min_confidence".toList →
      get_setting settings sn default =
        (some (.int 30), set_setting settings sn (.int 30))) := by
  constructor
  · intro h
    simp only [get_setting, habs]
    rw [if_neg h]
  · intro h1 h2
    simp only [get_setting, habs]
    rw [if_pos ⟨h1, h2⟩]

/-- Witness for C10: the absent name 'threads' with default 4 returns the
default and leaves an empty store empty. -/
theorem C10_get_setting_absent_witness :
    get_setting [] "threads".toList (some (.int 4)) = (some (.int 4), []) :=
  (C10_get_setting_absent [] "threads".toList (some (.int 4)) rfl).1 (by decide)
